import Mathlib

/-!
Verification of the mgc-sdk-go compute image listing layer and the
object-storage presigned-URL service, as a shallow embedding in Lean 4.

Source files embedded:
  - src/compute/images.go         (ImageService: List, ListAll, query building)
  - src/compute/custom_images.go  (CustomImageService: Create)
  - src/objectstorage/presigned.go (PresignedService: GeneratePresignedURL)
  - src/objectstorage/errors.go    (InvalidHTTPMethodError)

Go option structs use pointer fields for optional values; these become
Option in Lean. Go field names are capitalized; here they are lowercase
because Sort is a Lean keyword (the mapping is one-to-one).

The generic HTTP executor (internal/http: Do, ExecuteSimpleRequestWithRespBody)
is not part of the provided sources; it is modelled from the spec, see mgcDo.
The network itself is abstracted as a transport function from the encoded
query (or request body) to a response.
-/

namespace Mgc

/-- Body of an HTTP response as seen by the decoder, for payload type A.
absent models a nil or empty body, malformed a body that does not decode
as A, decoded a body that decodes to the given value. -/
inductive Body (A : Type) where
  | absent
  | malformed
  | decoded (value : A)
deriving DecidableEq

/-- Outcome of one network round trip before error normalization:
either a transport-level failure or an HTTP status with a body. -/
inductive HttpResponse (A : Type) where
  | transportError (msg : String)
  | http (status : Nat) (body : Body A)
deriving DecidableEq

/-- Normalized error taxonomy of the SDK (spec section 7). -/
inductive SdkError where
  | transport (msg : String)
  | decoding
  | validation
  | notFound
  | conflict
  | server
  | other (status : Nat)
deriving DecidableEq, Repr

/-- Modelled from the spec: the generic HTTP executor internal/http.Do /
ExecuteSimpleRequestWithRespBody is not among the provided sources. Spec
section 4.2: on status in [200,300) decode the body as the target type,
with a DecodingError on a malformed or empty/absent body regardless of
the success status; on non-2xx map the status family to a typed error
(404 not-found, 409 conflict, 400-class validation, 5xx server). -/
def mgcDo {A : Type} : HttpResponse A → Except SdkError A
  | .transportError msg => .error (.transport msg)
  | .http status body =>
    if 200 ≤ status ∧ status < 300 then
      match body with
      | .decoded v => .ok v
      | _ => .error .decoding
    else if status = 404 then .error .notFound
    else if status = 409 then .error .conflict
    else if 400 ≤ status ∧ status < 500 then .error .validation
    else if 500 ≤ status then .error .server
    else .error (.other status)

/-- MinimumRequirements from src/compute/images.go. -/
structure MinimumRequirements where
  vcpu : Int
  ram : Int
  disk : Int
deriving DecidableEq, Repr

/-- ImageStatus from src/compute/images.go: a named string type. -/
abbrev ImageStatus := String

def ImageStatusActive : ImageStatus := "active"
def ImageStatusDeprecated : ImageStatus := "deprecated"
def ImageStatusDeleted : ImageStatus := "deleted"
def ImageStatusPending : ImageStatus := "pending"
def ImageStatusCreating : ImageStatus := "creating"
def ImageStatusImporting : ImageStatus := "importing"
def ImageStatusError : ImageStatus := "error"
def ImageStatusDeletingError : ImageStatus := "deleting_error"

/-- Image from src/compute/images.go. Pointer fields become Option. -/
structure Image where
  id : String
  name : String
  status : ImageStatus
  version : Option String := none
  platform : Option String := none
  releaseAt : Option String := none
  endStandardSupportAt : Option String := none
  endLifeAt : Option String := none
  minimumRequirements : MinimumRequirements := ⟨0, 0, 0⟩
  labels : Option (List String) := none
  availabilityZones : Option (List String) := none
deriving DecidableEq, Repr

/-- Pagination metadata block. Modelled from the spec (section 6 envelope
shape and the test fixtures): the Meta type itself is declared outside the
provided sources. Its content is irrelevant to the pagination loop. -/
structure MetaPage where
  offset : Int
  limit : Int
  count : Int
  total : Int
deriving DecidableEq, Repr

/-- Envelope metadata wrapper, meta.page in the JSON shape. -/
structure Meta where
  page : MetaPage
deriving DecidableEq, Repr

/-- ImageList from src/compute/images.go: the list response envelope. -/
structure ImageList where
  meta : Meta
  images : List Image
deriving DecidableEq, Repr

/-- ImageListOptions from src/compute/images.go: Limit, Offset, Sort,
AvailabilityZone, all optional (pointers in Go). -/
structure ImageListOptions where
  limit : Option Int := none
  offset : Option Int := none
  sort : Option String := none
  availabilityZone : Option String := none
deriving DecidableEq, Repr

/-- ImageFilterOptions from src/compute/images.go: ListAll filters. -/
structure ImageFilterOptions where
  sort : Option String := none
  availabilityZone : Option String := none
deriving DecidableEq, Repr

/-- The query-building portion of imageService.List
(src/compute/images.go lines 94 to 107): q.Add of _limit, _offset, _sort
and availability-zone, each only when the field is non-nil, in source
order. url.Values is a multimap; since the four keys are distinct a flat
association list is an exact model. Numbers are rendered by strconv.Itoa,
that is, plain decimal with a leading minus for negatives, which is
toString on Int. The request path /v1/images carries no prior query, so
the list starts empty. -/
def imageListQuery (opts : ImageListOptions) : List (String × String) :=
  (match opts.limit with
    | some l => [("_limit", toString l)]
    | none => []) ++
  (match opts.offset with
    | some o => [("_offset", toString o)]
    | none => []) ++
  (match opts.sort with
    | some s => [("_sort", s)]
    | none => []) ++
  (match opts.availabilityZone with
    | some az => [("availability-zone", az)]
    | none => [])

/-- Lookup of the first value under a key, Go url.Values.Get. -/
def qget (key : String) (q : List (String × String)) : Option String :=
  (q.find? (fun p => p.1 = key)).map (fun p => p.2)

/-- Go url.QueryEscape applied to one character: alphanumerics and
minus, underscore, dot, tilde are kept, space becomes plus, anything
else is percent-encoded with uppercase hex. The values emitted by this
service are ASCII, so the character level equals the Go byte level. -/
def queryEscapeChar (c : Char) : String :=
  if c.isAlphanum ∨ c = '-' ∨ c = '_' ∨ c = '.' ∨ c = '~' then
    String.singleton c
  else if c = ' ' then "+"
  else
    let hexDigit : Nat → Char := fun n =>
      if n < 10 then Char.ofNat (48 + n) else Char.ofNat (55 + n)
    String.mk ['%', hexDigit (c.toNat / 16 % 16), hexDigit (c.toNat % 16)]

/-- Go url.QueryEscape over a whole string. -/
def queryEscape (s : String) : String :=
  String.join (s.toList.map queryEscapeChar)

/-- Byte-wise lexicographic order on character lists; for the ASCII keys
of this service this is exactly the order Go sort.Strings uses. -/
def charListLe (a b : List Char) : Bool :=
  match a, b with
  | [], _ => true
  | _ :: _, [] => false
  | c :: cs, d :: ds =>
    if c.toNat < d.toNat then true
    else if d.toNat < c.toNat then false
    else charListLe cs ds

/-- Lexicographic string order, Go sort.Strings order on ASCII keys. -/
def strLe (a b : String) : Bool := charListLe a.toList b.toList

/-- Insertion into a key-sorted association list. -/
def insertPair (p : String × String) : List (String × String) → List (String × String)
  | [] => [p]
  | q :: rest => if strLe p.1 q.1 then p :: q :: rest else q :: insertPair p rest

/-- Key-sorting of an association list, as url.Values.Encode sorts keys. -/
def sortByKey : List (String × String) → List (String × String)
  | [] => []
  | p :: rest => insertPair p (sortByKey rest)

/-- Go url.Values.Encode for distinct keys: sort by key, escape each key
and value, join key=value pairs with ampersands. -/
def encodeQuery (q : List (String × String)) : String :=
  String.intercalate "&" ((sortByKey q).map (fun p => queryEscape p.1 ++ "=" ++ queryEscape p.2))

/-- imageService.List (src/compute/images.go lines 88 to 117): build the
request query from the options, run it through the transport, and
normalize the outcome with the executor. The transport argument stands
for the server as reached through the request machinery; it is keyed by
the encoded query pairs. -/
def imageList (transport : List (String × String) → HttpResponse ImageList)
    (opts : ImageListOptions) : Except SdkError ImageList :=
  mgcDo (transport (imageListQuery opts))

/-- Loop body of imageService.ListAll (src/compute/images.go lines 126 to
149), with explicit fuel standing for the number of iterations the
unbounded Go for-loop is observed for: none means the loop has not
terminated within that many iterations. Each iteration calls List with
limit 50, the current offset, and the caller filters unchanged, appends
the returned images, stops when a page is shorter than the limit, and
otherwise advances the offset by the limit. -/
def listAllAux (transport : List (String × String) → HttpResponse ImageList)
    (opts : ImageFilterOptions) :
    Nat → Int → List Image → Option (Except SdkError (List Image))
  | 0, _, _ => none
  | fuel + 1, offset, acc =>
    match imageList transport
        { limit := some 50, offset := some offset,
          sort := opts.sort, availabilityZone := opts.availabilityZone } with
    | .error e => some (.error e)
    | .ok response =>
      let acc2 := acc ++ response.images
      if response.images.length < 50 then some (.ok acc2)
      else listAllAux transport opts fuel (offset + 50) acc2

/-- imageService.ListAll (src/compute/images.go lines 121 to 152):
offset starts at 0, accumulator empty. -/
def listAll (transport : List (String × String) → HttpResponse ImageList)
    (opts : ImageFilterOptions) (fuel : Nat) :
    Option (Except SdkError (List Image)) :=
  listAllAux transport opts fuel 0 []

/-- The single-page options ListAll builds at a given offset. -/
def pageOpts (s az : Option String) (offset : Int) : ImageListOptions :=
  { limit := some 50, offset := some offset, sort := s, availabilityZone := az }

/-- Platform from src/compute/custom_images.go: a named string type. -/
abbrev Platform := String

def PlatformLinux : Platform := "linux"
def PlatformWindows : Platform := "windows"

/-- Architecture from src/compute/custom_images.go. -/
abbrev Architecture := String

def ArchitectureX86_64 : Architecture := "x86/64"

/-- License from src/compute/custom_images.go. -/
abbrev License := String

def LicenseLicensed : License := "licensed"
def LicenseUnlicensed : License := "unlicensed"

/-- CreateCustomImageRequest from src/compute/custom_images.go. -/
structure CreateCustomImageRequest where
  name : String
  platform : Platform
  architecture : Architecture
  license : License
  url : String
  requirements : Option MinimumRequirements := none
  version : Option String := none
  description : Option String := none
  uefi : Option Bool := none
deriving DecidableEq, Repr

/-- The anonymous response payload of customImageService.Create:
struct with a single ID field, decoded from the JSON id field. -/
structure CreateIdResponse where
  id : String
deriving DecidableEq, Repr

/-- customImageService.Create (src/compute/custom_images.go lines 59 to
73): POST the request through the executor; on error return the empty
string paired with the error, otherwise the decoded id paired with no
error, mirroring the Go (string, error) return. The transport stands for
the server as a function of the serialized request body. -/
def createCustomImage
    (transport : CreateCustomImageRequest → HttpResponse CreateIdResponse)
    (createReq : CreateCustomImageRequest) : String × Option SdkError :=
  match mgcDo (transport createReq) with
  | .error e => ("", some e)
  | .ok res => (res.id, none)

/-- Error type of the object-storage layer as far as the presigned
service is concerned: either the InvalidHTTPMethodError from
src/objectstorage/errors.go, carrying the offending method, or an error
propagated unchanged from the underlying storage client (type E). -/
inductive PresignError (E : Type) where
  | invalidHTTPMethod (method : String)
  | client (e : E)
deriving DecidableEq

/-- The presigned slice of minioClientInterface from
src/objectstorage/minio_interface.go: the three signing operations.
PresignedGetObject and PresignedHeadObject take the request parameters;
PresignedPutObject does not. U is the URL type, E the client error type,
expiry the time.Duration as an integer, request parameters as url.Values
key-value pairs. -/
structure MinioClient (E U : Type) where
  presignedGetObject : String → String → Int → List (String × String) → Except E U
  presignedHeadObject : String → String → Int → List (String × String) → Except E U
  presignedPutObject : String → String → Int → Except E U

/-- presignedService.GeneratePresignedURL
(src/objectstorage/presigned.go lines 21 to 32): switch on the method
string; GET, HEAD and PUT delegate to the corresponding presign
operation of the storage client (PUT without the request parameters),
any other method returns an InvalidHTTPMethodError carrying the method,
with no URL and no client involvement. -/
def generatePresignedURL {E U : Type} (c : MinioClient E U)
    (method bucketName objectKey : String) (expiry : Int)
    (reqParams : List (String × String)) : Except (PresignError E) U :=
  if method = "GET" then
    (c.presignedGetObject bucketName objectKey expiry reqParams).mapError .client
  else if method = "HEAD" then
    (c.presignedHeadObject bucketName objectKey expiry reqParams).mapError .client
  else if method = "PUT" then
    (c.presignedPutObject bucketName objectKey expiry).mapError .client
  else
    .error (.invalidHTTPMethod method)

/-! Concrete fixtures used to instantiate the theorems below, taken from
the test fixtures in the repository (image ids, the custom image request,
page shapes). -/

def sampleImage : Image :=
  { id := "img1", name := "ubuntu-20.04", status := ImageStatusActive }

def sampleImage2 : Image :=
  { id := "img50", name := "image-50", status := ImageStatusActive }

def sampleMeta (total : Int) : Meta :=
  ⟨⟨0, 50, 0, total⟩⟩

/-- One full page of 50 records. -/
def fullPage : List Image := List.replicate 50 sampleImage

/-- The two-page fixture: a full first page, then a short page. -/
def twoPages : List (List Image) := [fullPage, [sampleImage2]]

/-- A server holding 51 images: full page at offset 0, short page
otherwise. -/
def twoPageSrv : List (String × String) → HttpResponse ImageList :=
  fun q =>
    if q = imageListQuery (pageOpts none none 0) then
      .http 200 (.decoded ⟨sampleMeta 51, fullPage⟩)
    else
      .http 200 (.decoded ⟨sampleMeta 51, [sampleImage2]⟩)

/-- A server that always answers an empty page, advertising total 0. -/
def emptySrvA : List (String × String) → HttpResponse ImageList :=
  fun _ => .http 200 (.decoded ⟨sampleMeta 0, []⟩)

/-- The same server except for a different advertised total. -/
def emptySrvB : List (String × String) → HttpResponse ImageList :=
  fun _ => .http 200 (.decoded ⟨sampleMeta 7, []⟩)

/-- A server that always fails with an internal server error. -/
def failSrv : List (String × String) → HttpResponse ImageList :=
  fun _ => .http 500 .malformed

/-- A server that answers 200 with an empty body. -/
def emptyBodySrv : List (String × String) → HttpResponse ImageList :=
  fun _ => .http 200 .absent

/-- The create request of the successful-creation test fixture. -/
def sampleCreateRequest : CreateCustomImageRequest :=
  { name := "test-image", platform := PlatformLinux,
    architecture := ArchitectureX86_64, license := LicenseUnlicensed,
    url := "https://br-se1.magaluobjects.com/bucket/image.qcow2" }

def sampleCreateId : String := "8cf5c6d9-d5c5-4af9-bd1b-c17d032dc761"

/-- A server answering 200 with the fixture id. -/
def createOkSrv : CreateCustomImageRequest → HttpResponse CreateIdResponse :=
  fun _ => .http 200 (.decoded ⟨sampleCreateId⟩)

/-- A server answering 409 conflict. -/
def createFailSrv : CreateCustomImageRequest → HttpResponse CreateIdResponse :=
  fun _ => .http 409 .malformed

/-- A server answering 201 Created with the fixture id. -/
def create201Srv : CreateCustomImageRequest → HttpResponse CreateIdResponse :=
  fun _ => .http 201 (.decoded ⟨sampleCreateId⟩)

/-- A concrete storage client for instantiating the presign theorems. -/
def sampleMinio : MinioClient Unit Nat :=
  { presignedGetObject := fun _ _ _ _ => .ok 1,
    presignedHeadObject := fun _ _ _ _ => .ok 2,
    presignedPutObject := fun _ _ _ => .ok 3 }

end Mgc

namespace Mgc

/-! Helper lemmas shared by the claim theorems. -/

/-- The executor accepts a decoded body on status 200. -/
theorem mgcDo_ok {A : Type} (v : A) :
    mgcDo (HttpResponse.http 200 (Body.decoded v)) = Except.ok v := by
  simp [mgcDo]

/-- List succeeds with the decoded envelope when the transport answers
200 with a decoded body for the encoded query. -/
theorem imageList_ok (t : List (String × String) → HttpResponse ImageList)
    (opts : ImageListOptions) (v : ImageList)
    (h : t (imageListQuery opts) = .http 200 (.decoded v)) :
    imageList t opts = .ok v := by
  simp [imageList, h, mgcDo]

/-- C6: with Limit, Offset, Sort and AvailabilityZone all absent, List
adds no query parameter: the pair list is empty, its encoding is the
empty query string, and the transport is reached with an empty query. -/
theorem imageListQuery_all_absent :
    imageListQuery ⟨none, none, none, none⟩ = [] ∧
    encodeQuery (imageListQuery ⟨none, none, none, none⟩) = "" ∧
    ∀ t : List (String × String) → HttpResponse ImageList,
      imageList t ⟨none, none, none, none⟩ = mgcDo (t []) :=
  ⟨rfl, rfl, fun _ => rfl⟩

/-- C7: for every integer limit and offset, List emits _limit and
_offset with exactly the decimal rendering of the given integers, with
no clamping; concretely, limit 1 offset 1 encodes to _limit=1&_offset=1
and limit -1 offset -1 encodes to _limit=-1&_offset=-1. -/
theorem imageListQuery_literal_ints :
    (∀ (l o : Int) (s az : Option String),
      qget "_limit" (imageListQuery ⟨some l, some o, s, az⟩) = some (toString l) ∧
      qget "_offset" (imageListQuery ⟨some l, some o, s, az⟩) = some (toString o)) ∧
    encodeQuery (imageListQuery ⟨some 1, some 1, none, none⟩) = "_limit=1&_offset=1" ∧
    encodeQuery (imageListQuery ⟨some (-1), some (-1), none, none⟩) = "_limit=-1&_offset=-1" := by
  refine ⟨fun l o s az => ⟨?_, ?_⟩, rfl, rfl⟩
  · simp [imageListQuery, qget, List.find?]
  · simp [imageListQuery, qget, List.find?]

/-- C4: a 200 response whose body is empty or absent fails with a
DecodingError, not a success value, for List. -/
theorem imageList_empty_body_errors
    (t : List (String × String) → HttpResponse ImageList)
    (opts : ImageListOptions)
    (h : t (imageListQuery opts) = .http 200 .absent) :
    imageList t opts = .error .decoding := by
  simp [imageList, h, mgcDo]

/-- Witness for C4 at the empty-body server and empty options. -/
theorem imageList_empty_body_errors_witness :
    imageList emptyBodySrv ⟨none, none, none, none⟩ = .error .decoding :=
  imageList_empty_body_errors emptyBodySrv ⟨none, none, none, none⟩ rfl

/-- C5: a method outside GET, HEAD, PUT yields an InvalidHTTPMethodError
carrying that method and no URL, for every storage client (so no call on
the client can influence the outcome); for GET, HEAD and PUT the service
delegates to exactly the corresponding presign operation. -/
theorem generatePresignedURL_rejects (method : String)
    (h : method ≠ "GET" ∧ method ≠ "HEAD" ∧ method ≠ "PUT") :
    (∀ (E U : Type) (c : MinioClient E U) (bucketName objectKey : String)
        (expiry : Int) (reqParams : List (String × String)),
      generatePresignedURL c method bucketName objectKey expiry reqParams =
        .error (.invalidHTTPMethod method)) ∧
    (∀ (E U : Type) (c : MinioClient E U) (bucketName objectKey : String)
        (expiry : Int) (reqParams : List (String × String)),
      generatePresignedURL c "GET" bucketName objectKey expiry reqParams =
        (c.presignedGetObject bucketName objectKey expiry reqParams).mapError .client ∧
      generatePresignedURL c "HEAD" bucketName objectKey expiry reqParams =
        (c.presignedHeadObject bucketName objectKey expiry reqParams).mapError .client ∧
      generatePresignedURL c "PUT" bucketName objectKey expiry reqParams =
        (c.presignedPutObject bucketName objectKey expiry).mapError .client) := by
  constructor
  · intro E U c bucketName objectKey expiry reqParams
    simp [generatePresignedURL, h.1, h.2.1, h.2.2]
  · intro E U c bucketName objectKey expiry reqParams
    refine ⟨rfl, ?_, ?_⟩ <;> simp [generatePresignedURL]

/-- Witness for C5 at method DELETE and a concrete client. -/
theorem generatePresignedURL_rejects_witness :
    generatePresignedURL sampleMinio "DELETE" "test-bucket" "test-key" 60 [] =
      .error (.invalidHTTPMethod "DELETE") :=
  (generatePresignedURL_rejects "DELETE" (by decide)).1
    Unit Nat sampleMinio "test-bucket" "test-key" 60 []

/-- C9: for PUT the outcome never depends on the request parameters,
because they are not forwarded to PresignedPutObject, while GET and HEAD
forward them to their presign operations. -/
theorem generatePresignedURL_put_ignores_reqParams :
    ∀ (E U : Type) (c : MinioClient E U) (bucketName objectKey : String)
      (expiry : Int) (p1 p2 : List (String × String)),
      generatePresignedURL c "PUT" bucketName objectKey expiry p1 =
        generatePresignedURL c "PUT" bucketName objectKey expiry p2 ∧
      generatePresignedURL c "PUT" bucketName objectKey expiry p1 =
        (c.presignedPutObject bucketName objectKey expiry).mapError .client ∧
      generatePresignedURL c "GET" bucketName objectKey expiry p1 =
        (c.presignedGetObject bucketName objectKey expiry p1).mapError .client ∧
      generatePresignedURL c "HEAD" bucketName objectKey expiry p1 =
        (c.presignedHeadObject bucketName objectKey expiry p1).mapError .client := by
  intro E U c bucketName objectKey expiry p1 p2
  refine ⟨?_, ?_, rfl, ?_⟩ <;> simp [generatePresignedURL]

/-- C8: Create on the fixture request against a server answering 200
with the fixture id returns exactly that id and no error; in general any
2xx response with a decoded id field yields the decoded id and no
error. -/
theorem createCustomImage_returns_id
    (t : CreateCustomImageRequest → HttpResponse CreateIdResponse)
    (h : t sampleCreateRequest = .http 200 (.decoded ⟨sampleCreateId⟩)) :
    createCustomImage t sampleCreateRequest = (sampleCreateId, none) ∧
    ∀ (t2 : CreateCustomImageRequest → HttpResponse CreateIdResponse)
      (r : CreateCustomImageRequest) (res : CreateIdResponse) (status : Nat),
      200 ≤ status → status < 300 →
      t2 r = .http status (.decoded res) →
      createCustomImage t2 r = (res.id, none) := by
  constructor
  · simp [createCustomImage, h, mgcDo]
  · intro t2 r res status hs1 hs2 h2
    simp [createCustomImage, h2, mgcDo, hs1, hs2]

/-- Witness for C8 at the concrete 200 server and, for the general 2xx
conjunct, at a 201 server. -/
theorem createCustomImage_returns_id_witness :
    createCustomImage createOkSrv sampleCreateRequest = (sampleCreateId, none) ∧
    createCustomImage create201Srv sampleCreateRequest = (sampleCreateId, none) :=
  ⟨(createCustomImage_returns_id createOkSrv rfl).1,
   (createCustomImage_returns_id createOkSrv rfl).2 create201Srv sampleCreateRequest
     ⟨sampleCreateId⟩ 201 (by decide) (by decide) rfl⟩

/-- C10: whenever Create returns an error, the returned id is the empty
string. -/
theorem createCustomImage_error_empty_id
    (t : CreateCustomImageRequest → HttpResponse CreateIdResponse)
    (r : CreateCustomImageRequest)
    (h : (createCustomImage t r).2 ≠ none) :
    (createCustomImage t r).1 = "" := by
  cases hm : mgcDo (t r) with
  | error e => simp [createCustomImage, hm]
  | ok res => exact absurd (by simp [createCustomImage, hm]) h

/-- Witness for C10 at the conflict server. -/
theorem createCustomImage_error_empty_id_witness :
    (createCustomImage createFailSrv sampleCreateRequest).1 = "" :=
  createCustomImage_error_empty_id createFailSrv sampleCreateRequest (by decide)

end Mgc

namespace Mgc

/-- One unfolding of the ListAll loop at positive fuel. -/
theorem listAllAux_succ (t : List (String × String) → HttpResponse ImageList)
    (s az : Option String) (fuel : Nat) (off : Int) (acc : List Image) :
    listAllAux t ⟨s, az⟩ (fuel + 1) off acc =
      match imageList t (pageOpts s az off) with
      | .error e => some (.error e)
      | .ok response =>
        if response.images.length < 50 then some (.ok (acc ++ response.images))
        else listAllAux t ⟨s, az⟩ fuel (off + 50) (acc ++ response.images) := rfl

/-- Loop step on a successful page. -/
theorem listAllAux_step_ok (t : List (String × String) → HttpResponse ImageList)
    (s az : Option String) (fuel : Nat) (off : Int) (acc : List Image)
    (v : ImageList) (h : imageList t (pageOpts s az off) = .ok v) :
    listAllAux t ⟨s, az⟩ (fuel + 1) off acc =
      if v.images.length < 50 then some (.ok (acc ++ v.images))
      else listAllAux t ⟨s, az⟩ fuel (off + 50) (acc ++ v.images) := by
  rw [listAllAux_succ, h]

/-- Loop step on a failing page. -/
theorem listAllAux_step_err (t : List (String × String) → HttpResponse ImageList)
    (s az : Option String) (fuel : Nat) (off : Int) (acc : List Image)
    (e : SdkError) (h : imageList t (pageOpts s az off) = .error e) :
    listAllAux t ⟨s, az⟩ (fuel + 1) off acc = some (.error e) := by
  rw [listAllAux_succ, h]

end Mgc

namespace Mgc

/-- Core invariant of the pagination loop: started at page index b with
accumulator acc, against a server that answers page b+i of the given
page list (full pages except a short last one), the loop consumes
exactly the pages and appends them in order to the accumulator. -/
theorem listAllAux_concat (t : List (String × String) → HttpResponse ImageList)
    (s az : Option String) (metas : Nat → Meta) :
    ∀ (pages : List (List Image)) (b : Nat) (acc : List Image),
      pages ≠ [] →
      (∀ i, i + 1 < pages.length → (pages.getD i []).length = 50) →
      (pages.getD (pages.length - 1) []).length < 50 →
      (∀ i, i < pages.length →
        t (imageListQuery (pageOpts s az (50 * ((b + i : Nat) : Int)))) =
          .http 200 (.decoded ⟨metas (b + i), pages.getD i []⟩)) →
      listAllAux t ⟨s, az⟩ pages.length (50 * ((b : Nat) : Int)) acc =
        some (.ok (acc ++ pages.flatten)) := by
  intro pages
  induction pages with
  | nil => intro b acc hne _ _ _; exact absurd rfl hne
  | cons p rest ih =>
    intro b acc _ hfull hshort hsrv
    have h0 : imageList t (pageOpts s az (50 * (b : Int))) = .ok ⟨metas b, p⟩ := by
      apply imageList_ok
      have h := hsrv 0 (by simp)
      simpa using h
    cases rest with
    | nil =>
      have hlen : p.length < 50 := by simpa using hshort
      have hstep := listAllAux_step_ok t s az 0 (50 * (b : Int)) acc ⟨metas b, p⟩ h0
      rw [if_pos (by simpa using hlen)] at hstep
      simpa using hstep
    | cons q rest2 =>
      have hlen : p.length = 50 := by
        have h := hfull 0 (by simp)
        simpa using h
      have hstep := listAllAux_step_ok t s az (q :: rest2).length (50 * (b : Int)) acc
        ⟨metas b, p⟩ h0
      rw [if_neg (by simp [hlen])] at hstep
      have ecast : (50 * (b : Int) + 50) = 50 * ((b + 1 : Nat) : Int) := by push_cast; ring
      rw [ecast] at hstep
      have hrec := ih (b + 1) (acc ++ p) (by simp)
        (by
          intro i hi
          have h := hfull (i + 1) (by simpa using Nat.succ_lt_succ hi)
          simpa using h)
        (by
          have h := hshort
          simpa using h)
        (by
          intro i hi
          have h := hsrv (i + 1) (by simpa using Nat.succ_lt_succ hi)
          have e2 : b + (i + 1) = b + 1 + i := by omega
          rw [e2] at h
          simpa only [List.getD_cons_succ] using h)
      calc listAllAux t ⟨s, az⟩ (p :: q :: rest2).length (50 * (b : Int)) acc
          = listAllAux t ⟨s, az⟩ (q :: rest2).length (50 * ((b + 1 : Nat) : Int)) (acc ++ p) := hstep
        _ = some (.ok ((acc ++ p) ++ (q :: rest2).flatten)) := hrec
        _ = some (.ok (acc ++ (p :: q :: rest2).flatten)) := by
            simp [List.flatten_cons, List.append_assoc]

end Mgc

namespace Mgc

/-- C1: against a server whose page i (offset 50 i, limit 50, the caller
sort and availability-zone filters unchanged in the encoded query) is
the i-th element of a page list whose pages are all full (exactly 50
records) except a short final one, ListAll returns the concatenation of
the pages in page order, whose length is the sum of the per-page counts. -/
theorem listAll_concatenates_pages
    (t : List (String × String) → HttpResponse ImageList)
    (s az : Option String) (metas : Nat → Meta) (pages : List (List Image))
    (hne : pages ≠ [])
    (hfull : ∀ i, i + 1 < pages.length → (pages.getD i []).length = 50)
    (hshort : (pages.getD (pages.length - 1) []).length < 50)
    (hsrv : ∀ i, i < pages.length →
      t (imageListQuery (pageOpts s az (50 * (i : Int)))) =
        .http 200 (.decoded ⟨metas i, pages.getD i []⟩)) :
    listAll t ⟨s, az⟩ pages.length = some (.ok pages.flatten) ∧
    pages.flatten.length = (pages.map List.length).sum := by
  constructor
  · have h := listAllAux_concat t s az metas pages 0 [] hne hfull hshort
      (by intro i hi; simpa using hsrv i hi)
    simpa [listAll] using h
  · exact List.length_flatten pages

end Mgc

namespace Mgc

/-- Witness for C1 at the two-page server: a full page of 50 records
followed by a short page of one record. -/
theorem listAll_concatenates_pages_witness :
    listAll twoPageSrv ⟨none, none⟩ twoPages.length = some (.ok twoPages.flatten) ∧
    twoPages.flatten.length = (twoPages.map List.length).sum :=
  listAll_concatenates_pages twoPageSrv none none (fun _ => sampleMeta 51) twoPages
    (by decide)
    (by
      intro i hi
      have h2 : i = 0 := by simp [twoPages] at hi; omega
      subst h2
      decide)
    (by decide)
    (by
      intro i hi
      have h2 : i = 0 ∨ i = 1 := by simp [twoPages] at hi; omega
      rcases h2 with h2 | h2 <;> subst h2 <;> decide)

end Mgc

namespace Mgc

/-- Metadata irrelevance of the loop: two servers answering the same
image sequences page for page, with arbitrary and possibly different
metadata blocks, drive the loop to identical results at every fuel. -/
theorem listAllAux_meta_irrelevant
    (t1 t2 : List (String × String) → HttpResponse ImageList)
    (s az : Option String) (pages : Nat → List Image) (m1 m2 : Nat → Meta)
    (h1 : ∀ i : Nat, t1 (imageListQuery (pageOpts s az (50 * (i : Int)))) =
      .http 200 (.decoded ⟨m1 i, pages i⟩))
    (h2 : ∀ i : Nat, t2 (imageListQuery (pageOpts s az (50 * (i : Int)))) =
      .http 200 (.decoded ⟨m2 i, pages i⟩)) :
    ∀ (fuel b : Nat) (acc : List Image),
      listAllAux t1 ⟨s, az⟩ fuel (50 * ((b : Nat) : Int)) acc =
        listAllAux t2 ⟨s, az⟩ fuel (50 * ((b : Nat) : Int)) acc := by
  intro fuel
  induction fuel with
  | zero => intro b acc; rfl
  | succ n ihn =>
    intro b acc
    rw [listAllAux_step_ok t1 s az n _ acc ⟨m1 b, pages b⟩ (imageList_ok _ _ _ (h1 b)),
        listAllAux_step_ok t2 s az n _ acc ⟨m2 b, pages b⟩ (imageList_ok _ _ _ (h2 b))]
    by_cases hc : (pages b).length < 50
    · simp [hc]
    · have ecast : (50 * ((b : Nat) : Int) + 50) = 50 * ((b + 1 : Nat) : Int) := by
        push_cast; ring
      simp only [hc, if_neg, ite_false]
      rw [ecast]
      exact ihn (b + 1) (acc ++ pages b)

/-- If every page the server returns is full, the loop never leaves its
for-loop: no amount of fuel makes it return. -/
theorem listAllAux_full_pages_no_end
    (t1 : List (String × String) → HttpResponse ImageList)
    (s az : Option String) (pages : Nat → List Image) (m1 : Nat → Meta)
    (h1 : ∀ i : Nat, t1 (imageListQuery (pageOpts s az (50 * (i : Int)))) =
      .http 200 (.decoded ⟨m1 i, pages i⟩))
    (hfull : ∀ i, 50 ≤ (pages i).length) :
    ∀ (fuel b : Nat) (acc : List Image),
      listAllAux t1 ⟨s, az⟩ fuel (50 * ((b : Nat) : Int)) acc = none := by
  intro fuel
  induction fuel with
  | zero => intro b acc; rfl
  | succ n ihn =>
    intro b acc
    rw [listAllAux_step_ok t1 s az n _ acc ⟨m1 b, pages b⟩ (imageList_ok _ _ _ (h1 b))]
    have hc : ¬ (pages b).length < 50 := by have := hfull b; omega
    have ecast : (50 * ((b : Nat) : Int) + 50) = 50 * ((b + 1 : Nat) : Int) := by
      push_cast; ring
    simp only [hc, if_neg, ite_false]
    rw [ecast]
    exact ihn (b + 1) (acc ++ pages b)

/-- If page b+k is short, the loop started at page b returns a success
within k+1 iterations. -/
theorem listAllAux_short_page_ends
    (t1 : List (String × String) → HttpResponse ImageList)
    (s az : Option String) (pages : Nat → List Image) (m1 : Nat → Meta)
    (h1 : ∀ i : Nat, t1 (imageListQuery (pageOpts s az (50 * (i : Int)))) =
      .http 200 (.decoded ⟨m1 i, pages i⟩)) :
    ∀ (k b : Nat) (acc : List Image), (pages (b + k)).length < 50 →
      ∃ r, listAllAux t1 ⟨s, az⟩ (k + 1) (50 * ((b : Nat) : Int)) acc =
        some (Except.ok r) := by
  intro k
  induction k with
  | zero =>
    intro b acc hshort
    refine ⟨acc ++ pages b, ?_⟩
    rw [listAllAux_step_ok t1 s az 0 _ acc ⟨m1 b, pages b⟩ (imageList_ok _ _ _ (h1 b))]
    rw [if_pos (by simpa using hshort)]
  | succ n ihn =>
    intro b acc hshort
    by_cases hc : (pages b).length < 50
    · refine ⟨acc ++ pages b, ?_⟩
      rw [listAllAux_step_ok t1 s az (n + 1) _ acc ⟨m1 b, pages b⟩ (imageList_ok _ _ _ (h1 b))]
      rw [if_pos hc]
    · have ecast : (50 * ((b : Nat) : Int) + 50) = 50 * ((b + 1 : Nat) : Int) := by
        push_cast; ring
      obtain ⟨r, hr⟩ := ihn (b + 1) (acc ++ pages b)
        (by rw [show b + 1 + n = b + (n + 1) from by omega]; exact hshort)
      refine ⟨r, ?_⟩
      rw [listAllAux_step_ok t1 s az (n + 1) _ acc ⟨m1 b, pages b⟩ (imageList_ok _ _ _ (h1 b))]
      rw [if_neg hc, ecast]
      exact hr

/-- C2: with a server that always answers 200 with a decoded page, the
loop terminates exactly when some page is short: if every page holds at
least 50 records no fuel bound is ever enough, while a short page at
index k forces a successful return within k+1 iterations; and the
metadata block, in particular meta.total, never influences the loop, so
two servers differing only in their metadata produce identical runs. -/
theorem listAll_terminates_iff_short_page
    (t1 t2 : List (String × String) → HttpResponse ImageList)
    (s az : Option String) (pages : Nat → List Image) (m1 m2 : Nat → Meta)
    (h1 : ∀ i : Nat, t1 (imageListQuery (pageOpts s az (50 * (i : Int)))) =
      .http 200 (.decoded ⟨m1 i, pages i⟩))
    (h2 : ∀ i : Nat, t2 (imageListQuery (pageOpts s az (50 * (i : Int)))) =
      .http 200 (.decoded ⟨m2 i, pages i⟩)) :
    (∀ fuel, listAll t1 ⟨s, az⟩ fuel = listAll t2 ⟨s, az⟩ fuel) ∧
    ((∀ i, 50 ≤ (pages i).length) → ∀ fuel, listAll t1 ⟨s, az⟩ fuel = none) ∧
    (∀ k, (pages k).length < 50 →
      ∃ r, listAll t1 ⟨s, az⟩ (k + 1) = some (Except.ok r)) := by
  refine ⟨?_, ?_, ?_⟩
  · intro fuel
    have h := listAllAux_meta_irrelevant t1 t2 s az pages m1 m2 h1 h2 fuel 0 []
    simpa [listAll] using h
  · intro hfull fuel
    have h := listAllAux_full_pages_no_end t1 s az pages m1 h1 hfull fuel 0 []
    simpa [listAll] using h
  · intro k hshort
    have h := listAllAux_short_page_ends t1 s az pages m1 h1 k 0 []
      (by simpa using hshort)
    simpa [listAll] using h

/-- Witness for C2 at two empty-page servers that advertise different
totals: same run, and termination on the short (empty) first page. -/
theorem listAll_terminates_iff_short_page_witness :
    listAll emptySrvA ⟨none, none⟩ 3 = listAll emptySrvB ⟨none, none⟩ 3 ∧
    ∃ r, listAll emptySrvA ⟨none, none⟩ 1 = some (Except.ok r) :=
  ⟨(listAll_terminates_iff_short_page emptySrvA emptySrvB none none (fun _ => [])
      (fun _ => sampleMeta 0) (fun _ => sampleMeta 7)
      (fun _ => rfl) (fun _ => rfl)).1 3,
   (listAll_terminates_iff_short_page emptySrvA emptySrvB none none (fun _ => [])
      (fun _ => sampleMeta 0) (fun _ => sampleMeta 7)
      (fun _ => rfl) (fun _ => rfl)).2.2 0 (by decide)⟩

end Mgc

namespace Mgc

/-- If pages b..b+k-1 succeed with full pages and the List call at page
b+k fails with error e, the loop started at page b returns exactly that
error once it reaches the failing page. -/
theorem listAllAux_error_aborts
    (t : List (String × String) → HttpResponse ImageList)
    (s az : Option String) (resp : Nat → ImageList) (e : SdkError) :
    ∀ (k b : Nat) (acc : List Image),
      (∀ i, i < k → imageList t (pageOpts s az (50 * ((b + i : Nat) : Int))) =
        .ok (resp (b + i)) ∧ 50 ≤ (resp (b + i)).images.length) →
      imageList t (pageOpts s az (50 * ((b + k : Nat) : Int))) = .error e →
      ∀ fuel, k < fuel →
        listAllAux t ⟨s, az⟩ fuel (50 * ((b : Nat) : Int)) acc = some (.error e) := by
  intro k
  induction k with
  | zero =>
    intro b acc _ herr fuel hfuel
    obtain ⟨n, rfl⟩ : ∃ n, fuel = n + 1 := ⟨fuel - 1, by omega⟩
    exact listAllAux_step_err t s az n _ acc e (by simpa using herr)
  | succ kk ih =>
    intro b acc hok herr fuel hfuel
    obtain ⟨n, rfl⟩ : ∃ n, fuel = n + 1 := ⟨fuel - 1, by omega⟩
    have h0 := hok 0 (by omega)
    rw [listAllAux_step_ok t s az n _ acc (resp (b + 0)) (by simpa using h0.1)]
    rw [if_neg (by have := h0.2; omega)]
    have ecast : (50 * ((b : Nat) : Int) + 50) = 50 * ((b + 1 : Nat) : Int) := by
      push_cast; ring
    rw [ecast]
    apply ih (b + 1) (acc ++ (resp (b + 0)).images)
      (by
        intro i hi
        have h := hok (i + 1) (by omega)
        rw [show b + (i + 1) = b + 1 + i from by omega] at h
        exact h)
      (by
        have h := herr
        rw [show b + (kk + 1) = b + 1 + kk from by omega] at h
        exact h)
      n (by omega)

/-- C3: if the pages before index k succeed full and the single-page
List call at page k fails with any error, ListAll returns exactly that
error and no record sequence: the records accumulated from the earlier
pages are discarded. -/
theorem listAll_error_aborts
    (t : List (String × String) → HttpResponse ImageList)
    (s az : Option String) (resp : Nat → ImageList) (e : SdkError) (k : Nat)
    (hok : ∀ i, i < k → imageList t (pageOpts s az (50 * (i : Int))) = .ok (resp i) ∧
      50 ≤ (resp i).images.length)
    (herr : imageList t (pageOpts s az (50 * (k : Int))) = .error e) :
    ∀ fuel, k < fuel → listAll t ⟨s, az⟩ fuel = some (.error e) := by
  intro fuel hfuel
  have h := listAllAux_error_aborts t s az resp e k 0 []
    (by intro i hi; simpa using hok i hi)
    (by simpa using herr)
    fuel hfuel
  simpa [listAll] using h

/-- Witness for C3 at the always-failing server: the first page already
fails with a server error and ListAll returns it. -/
theorem listAll_error_aborts_witness :
    listAll failSrv ⟨none, none⟩ 1 = some (.error .server) :=
  listAll_error_aborts failSrv none none (fun _ => ⟨sampleMeta 0, []⟩) .server 0
    (fun i hi => absurd hi (Nat.not_lt_zero i))
    rfl
    1 (by decide)

end Mgc
